import Mathlib

/-!
Shallow embedding of the keyboard-maestro-mcp server (TypeScript sources under
src/) for checking its natural-language specification.  Pure string
manipulation is translated to Lean functions over `String` / `List Char`;
the stateful parts (temp-file staging, osascript invocations) are embedded
as explicit state passing over a small state type with an oracle supplying
the outcome of each external process invocation.  JavaScript single-character
global `replace` calls are modelled as per-character expansion, which is
extensionally the same transformation.
-/

/-- The apostrophe character, used inside AppleScript template text. -/
def apos : String := (Char.ofNat 39).toString

/-- ASCII view of the JavaScript whitespace class used by `\s`, `trim` and
`parseInt` (space, tab, line feed, carriage return, vertical tab, form feed;
the rarely-occurring Unicode space code points are not modelled). -/
def jsIsSpace (c : Char) : Bool :=
  c = ' ' || c = (Char.ofNat 9) || c = (Char.ofNat 10) || c = (Char.ofNat 13) ||
  c = (Char.ofNat 11) || c = (Char.ofNat 12)

/-- ASCII decimal digit test (JavaScript `\d`). -/
def isDigitC (c : Char) : Bool := '0' ≤ c && c ≤ '9'

/-- Numeric value of an ASCII digit character. -/
def digitVal (c : Char) : Nat := c.toNat - 48

/-- ASCII lower-casing of one character (model of `toLowerCase` / regex `i`
flag on ASCII input). -/
def lowerAscii (c : Char) : Char :=
  if 'A' ≤ c && c ≤ 'Z' then Char.ofNat (c.toNat + 32) else c

/-- Boolean list-of-chars matcher: does the second list start with the first? -/
def isPre : List Char → List Char → Bool
  | [], _ => true
  | _ :: _, [] => false
  | a :: as, b :: bs => a = b && isPre as bs

/-- Substring test on character lists (model of JavaScript `includes` and of
a regex made of one literal alternative). -/
def containsL : List Char → List Char → Bool
  | [], pat => isPre pat []
  | hay@(_ :: rest), pat => isPre pat hay || containsL rest pat

/-- Split the list at the first occurrence of `sep`, returning the part
before it and the part after it, or `none` when `sep` does not occur. -/
def breakOn (sep : List Char) : List Char → Option (List Char × List Char)
  | [] => if isPre sep [] then some ([], []) else none
  | s@(c :: rest) =>
    if isPre sep s then some ([], s.drop sep.length)
    else (breakOn sep rest).map (fun p => (c :: p.1, p.2))

/-- Fuel-driven worker for `jsSplitL`; the fuel bounds the number of
separator occurrences, so `length s` is always enough for a non-empty
separator. -/
def jsSplitFuel (sep : List Char) : Nat → List Char → List (List Char)
  | 0, s => [s]
  | fuel + 1, s =>
    match breakOn sep s with
    | none => [s]
    | some p => p.1 :: jsSplitFuel sep fuel p.2

/-- Model of JavaScript `String.prototype.split` with a non-empty string
separator: repeatedly cut at the leftmost occurrence. -/
def jsSplitL (sep s : List Char) : List (List Char) := jsSplitFuel sep s.length s

/-- Model of JavaScript `String.prototype.trim` (ASCII whitespace). -/
def jsTrimL (l : List Char) : List Char :=
  ((l.dropWhile jsIsSpace).reverse.dropWhile jsIsSpace).reverse

/-- Model of JavaScript `String.prototype.trim` on `String`. -/
def jsTrim (s : String) : String := String.mk (jsTrimL s.data)

/-- Model of JavaScript `parseInt` applied to a digit run: the leading
decimal digits of the list, or `none` when there is no leading digit
(`parseInt` then yields `NaN`). -/
def jsParseIntDigits (cs : List Char) : Option Nat :=
  let ds := cs.takeWhile isDigitC
  if ds.isEmpty then none else some (ds.foldl (fun a c => 10 * a + digitVal c) 0)

/-- Model of JavaScript `parseInt(s)` (base 10): skip leading whitespace,
accept an optional sign, read leading digits; `none` models `NaN`. -/
def jsParseInt? (s : String) : Option Int :=
  match s.data.dropWhile jsIsSpace with
  | '-' :: rest => (jsParseIntDigits rest).map (fun n => -(n : Int))
  | '+' :: rest => (jsParseIntDigits rest).map (fun n => (n : Int))
  | rest => (jsParseIntDigits rest).map (fun n => (n : Int))

/-- Model of the idiom `parseInt(s) || 0` from `addAction`
(src/src/tools/macros.ts): `NaN` collapses to `0`. -/
def jsParseIntOr0 (s : String) : Int := (jsParseInt? s).getD 0

/-!
## Escaping and well-formedness of generated AppleScript

The only lexical structure of the scripting grammar that interpolation can
break is the double-quoted string literal, in which a backslash escapes the
following character.  `scanChar`/`scanL` is that lexer fragment;
`stringLiteralsClosed` holds when every string literal opened in the program
text is properly closed, a necessary condition for the program to be
syntactically valid.
-/

/-- Lexer state for scanning double-quoted string literals with
backslash escapes. -/
inductive ScanSt where
  | outside : ScanSt
  | inStr : ScanSt
  | esc : ScanSt
deriving DecidableEq, Repr

/-- One step of the string-literal lexer. -/
def scanChar : ScanSt → Char → ScanSt
  | ScanSt.outside, c => if c = '"' then ScanSt.inStr else ScanSt.outside
  | ScanSt.inStr, c =>
    if c = '\\' then ScanSt.esc else if c = '"' then ScanSt.outside else ScanSt.inStr
  | ScanSt.esc, _ => ScanSt.inStr

/-- Run the string-literal lexer over a character list. -/
def scanL (st : ScanSt) (l : List Char) : ScanSt := l.foldl scanChar st

/-- A program text closes every string literal it opens. -/
def stringLiteralsClosed (s : String) : Bool := scanL ScanSt.outside s.data = ScanSt.outside

/-- Per-character expansion form of `query.replace(/"/g, char 92 ++ char 34)`
(used by `searchMacros`, `createMacro`, `setVariable` and friends):
each double quote becomes backslash-quote. -/
def expandQ : List Char → List Char
  | [] => []
  | c :: rest => (if c = '"' then ['\\', '"'] else [c]) ++ expandQ rest

/-- Per-character expansion form of doubling each backslash
(the first `replace` of `searchReplaceInAction`). -/
def expandB : List Char → List Char
  | [] => []
  | c :: rest => (if c = '\\' then ['\\', '\\'] else [c]) ++ expandB rest

/-- Quote-only escaping, as done by `searchMacros` (src/src/tools/macros.ts
line 99) and by `setVariable` on its value (src/src/tools/variables.ts). -/
def escQuotes (s : String) : String := String.mk (expandQ s.data)

/-- Full escaping of backslash then quote, as done by
`searchReplaceInAction` (src/src/tools/macros.ts lines 557-558). -/
def escFull (s : String) : String := String.mk (expandQ (expandB s.data))

/-- A string free of both characters the spec calls special to the
scripting grammar. -/
def noSpecialChars (s : String) : Prop := ∀ c ∈ s.data, c ≠ '"' ∧ c ≠ '\\'

/-- A string free of backslashes. -/
def noBackslash (s : String) : Prop := ∀ c ∈ s.data, c ≠ '\\'

/-!
## Script builders (the Script Builder component)

Each `...Script` definition is the exact template-literal text of the
corresponding TypeScript function, with the interpolated parts made
explicit.  Segment constants hold the fixed template text between
interpolation points.
-/

/-- Fixed text of `getMacro` (src/src/tools/macros.ts lines 138-142) before
the first interpolation of `identifier`. -/
def gmSeg0 : String :=
  "\ntell application \"Keyboard Maestro\"\n  set theMacro to first macro whose name is \""

/-- Fixed text of the `getMacro` template between the two interpolations. -/
def gmSeg1 : String := "\" or id is \""

/-- Fixed text of the `getMacro` template after the second interpolation. -/
def gmSeg2 : String :=
  "\"\n  return name of theMacro & \"|\" & id of theMacro & \"|\" & enabled of theMacro\nend tell"

/-- The control script built by `getMacro` (src/src/tools/macros.ts lines
138-142); the identifier is interpolated verbatim, twice. -/
def getMacroScript (identifier : String) : String :=
  gmSeg0 ++ identifier ++ gmSeg1 ++ identifier ++ gmSeg2

/-- Fixed text of the `searchMacros` template (src/src/tools/macros.ts lines
101-116) before the interpolation of the escaped query. -/
def smSeg0 : String :=
  "\ntell application \"Keyboard Maestro\"\n  set oldDelims to AppleScript" ++ apos ++
  "s text item delimiters\n  set AppleScript" ++ apos ++
  "s text item delimiters to \";;;\"\n  \n  set matchMacros to every macro whose name contains \""

/-- Fixed text of the `searchMacros` template after the interpolation. -/
def smSeg1 : String :=
  "\"\n  \n  set resultList to \x7b\x7d\n  repeat with aMacro in matchMacros\n    set end of resultList to (name of aMacro) & \"|||\" & (id of aMacro)\n  end repeat\n  \n  set output to resultList as text\n  set AppleScript" ++
  apos ++ "s text item delimiters to oldDelims\n  return output\nend tell"

/-- The control script built by `searchMacros` (src/src/tools/macros.ts
lines 98-116); only double quotes of the query are escaped. -/
def searchMacrosScript (query : String) : String :=
  smSeg0 ++ escQuotes query ++ smSeg1

/-- The one-line control script built by `setVariable`
(src/src/tools/variables.ts lines 25-32): the name is interpolated verbatim,
the value with quote-only escaping. -/
def setVariableScript (name value : String) : String :=
  "tell application \"Keyboard Maestro Engine\" to setvariable \"" ++ name ++
  "\" to \"" ++ escQuotes value ++ "\""

/-- Fixed text of the `searchReplaceInAction` template
(src/src/tools/macros.ts lines 560-570), first segment. -/
def srSeg0 : String :=
  "\ntell application \"Keyboard Maestro\"\n  set theMacro to first macro whose name is \""

/-- `searchReplaceInAction` template, between the two identifier slots. -/
def srSeg1 : String := "\" or id is \""

/-- `searchReplaceInAction` template, from after the identifier to the
first action-index slot. -/
def srSeg2 : String := "\"\n  tell theMacro\n    set theXML to xml of action "

/-- `searchReplaceInAction` template, from the index to the search slot. -/
def srSeg3 : String :=
  "\n    tell application \"Keyboard Maestro Engine\"\n      set fixedXML to search theXML for \""

/-- `searchReplaceInAction` template, between search and replace slots. -/
def srSeg4 : String := "\" replace \""

/-- `searchReplaceInAction` template, from the replace slot to the second
action-index slot. -/
def srSeg5 : String :=
  "\" regex false case sensitive true process tokens false\n    end tell\n    set xml of action "

/-- `searchReplaceInAction` template, final segment. -/
def srSeg6 : String := " to fixedXML\n  end tell\nend tell"

/-- The control script built by `searchReplaceInAction`
(src/src/tools/macros.ts lines 549-570): search and replace text get full
backslash-and-quote escaping, the macro identifier is verbatim, the action
index is rendered as decimal digits. -/
def searchReplaceScript (macroIdentifier : String) (actionIndex : Nat)
    (searchText replaceText : String) : String :=
  srSeg0 ++ macroIdentifier ++ srSeg1 ++ macroIdentifier ++ srSeg2 ++
  Nat.repr actionIndex ++ srSeg3 ++ escFull searchText ++ srSeg4 ++
  escFull replaceText ++ srSeg5 ++ Nat.repr actionIndex ++ srSeg6

/-!
## Temp-file staging and the effectful macro operations

The staging/execution/cleanup behaviour of `addAction`, `addTrigger`,
`setActionXml` and `setTriggerXml` is embedded as explicit state passing.
The state carries the scratch directory contents, a queue of oracle
responses standing for the outcome of each `osascript` invocation, the
current `Date.now()` millisecond reading, an injected fault flag for
`fs.unlinkSync`, and an event trace recording staging, release and
execution events.
-/

/-- Observable events of one operation run. -/
inductive KMEvent where
  | staged : String → KMEvent
  | released : String → KMEvent
  | ran : String → KMEvent
deriving DecidableEq, Repr

deriving instance DecidableEq for Except

/-- State threaded through an operation: millisecond clock, scratch files
(path and contents), queued oracle outcomes for script executions, the
injected `unlinkSync` fault flag, and the event trace. -/
structure KMSt where
  clock : Nat
  fs : List (String × String)
  queue : List (Except String String)
  unlinkOk : Bool
  trace : List KMEvent
deriving DecidableEq, Repr

/-- Effectful computation: state in, JavaScript-exception-or-value plus
state out. -/
def KM (α : Type) : Type := KMSt → Except String α × KMSt

/-- Sequencing with exception propagation (JavaScript `await`/`throw`). -/
def kmBind {α β : Type} (m : KM α) (f : α → KM β) : KM β := fun st =>
  match m st with
  | (Except.ok a, st1) => f a st1
  | (Except.error e, st1) => (Except.error e, st1)

/-- Pure result. -/
def kmPure {α : Type} (a : α) : KM α := fun st => (Except.ok a, st)

/-- `throw new Error(msg)`. -/
def kmThrow {α : Type} (msg : String) : KM α := fun st => (Except.error msg, st)

/-- JavaScript `try { body } catch (e) { throw wrap(e) } finally { fin }`:
the finaliser runs on every exit path, a caught error is re-thrown
re-wrapped, and the finaliser cannot change the result. -/
def tryCatchFinally {α : Type} (body : KM α) (wrap : String → String)
    (fin : KM Unit) : KM α := fun st =>
  let r := body st
  let r1 : Except String α :=
    match r.1 with
    | Except.ok a => Except.ok a
    | Except.error e => Except.error (wrap e)
  (r1, (fin r.2).2)

/-- The temp path chosen by `writeTempXml` (src/src/tools/macros.ts line
26): `path.join(os.tmpdir(), ...)` with the `Date.now()` reading as the only
varying part; the scratch directory is modelled as /tmp. -/
def tempPathFor (now : Nat) : String := "/tmp/km_action_" ++ Nat.repr now ++ ".plist"

/-- Model of JavaScript `String.prototype.startsWith`. -/
def jsStartsWith (s pre : String) : Bool := isPre pre.data s.data

/-- `wrapXmlInPlist` (src/src/tools/macros.ts lines 9-19): pass the trimmed
payload through when it already starts with an envelope token, else wrap it
in declaration, doctype and plist root. -/
def wrapXmlInPlist (xml : String) : String :=
  let trimmed := jsTrim xml
  if jsStartsWith trimmed "<?xml" || jsStartsWith trimmed "<!DOCTYPE" || jsStartsWith trimmed "<plist" then
    trimmed
  else
    "<?xml version=\"1.0\" encoding=\"UTF-8\"?>\n<!DOCTYPE plist PUBLIC \"-//Apple//DTD PLIST 1.0//EN\" \"http://www.apple.com/DTDs/PropertyList-1.0.dtd\">\n<plist version=\"1.0\">\n" ++
    trimmed ++ "\n</plist>"

/-- `writeTempXml` (src/src/tools/macros.ts lines 25-29): stage the wrapped
payload at the clock-derived path (overwriting any file already there) and
return the path. -/
def writeTempXml (xml : String) : KM String := fun st =>
  let p := tempPathFor st.clock
  (Except.ok p,
   { st with
     fs := (p, wrapXmlInPlist xml) :: st.fs.filter (fun e => e.1 ≠ p),
     trace := st.trace ++ [KMEvent.staged p] })

/-- `cleanupTempFile` (src/src/tools/macros.ts lines 34-40): try to unlink,
swallowing any failure (missing file or the injected fault); always
succeeds from the caller point of view. -/
def cleanupTempFile (p : String) : KM Unit := fun st =>
  if st.unlinkOk && st.fs.any (fun e => e.1 = p) then
    (Except.ok (),
     { st with fs := st.fs.filter (fun e => e.1 ≠ p),
               trace := st.trace ++ [KMEvent.released p] })
  else
    (Except.ok (), { st with trace := st.trace ++ [KMEvent.released p] })

/-- `runAppleScriptFile` / `runAppleScript` (src/src/utils/applescript.ts):
hand the program text to the external process and receive the next oracle
outcome (trimmed stdout on success, diagnostic on failure). -/
def runScriptOracle (script : String) : KM String := fun st =>
  match st.queue with
  | [] => (Except.ok "", { st with trace := st.trace ++ [KMEvent.ran script] })
  | r :: rest => (r, { st with queue := rest, trace := st.trace ++ [KMEvent.ran script] })

/-- The action-count script of `addAction` (src/src/tools/macros.ts lines
251-255). -/
def countActionsScript (macroIdentifier : String) : String :=
  "\ntell application \"Keyboard Maestro\"\n  set theMacro to first macro whose name is \"" ++
  macroIdentifier ++ "\" or id is \"" ++ macroIdentifier ++
  "\"\n  return count of actions of theMacro\nend tell"

/-- The make-new-action script of `addAction` (src/src/tools/macros.ts
lines 258-265). -/
def addActionScript (macroIdentifier tempPath : String) : String :=
  "\nset xmlContent to read POSIX file \"" ++ tempPath ++
  "\" as «class utf8»\ntell application \"Keyboard Maestro\"\n  set theMacro to first macro whose name is \"" ++
  macroIdentifier ++ "\" or id is \"" ++ macroIdentifier ++
  "\"\n  tell theMacro\n    make new action with properties \x7bxml:xmlContent\x7d\n  end tell\nend tell"

/-- `addAction` (src/src/tools/macros.ts lines 247-281): stage the payload,
read the before count, run the mutation, re-read the count, fail with the
"not created" error when the count did not strictly grow; wrap any error
and always release the staged file. -/
def addAction (macroIdentifier actionXml : String) : KM String := fun st =>
  let staged := writeTempXml actionXml st
  match staged.1 with
  | Except.error e => (Except.error e, staged.2)
  | Except.ok tempPath =>
    tryCatchFinally
      (kmBind (runScriptOracle (countActionsScript macroIdentifier)) (fun c1 =>
        let beforeCount := jsParseIntOr0 c1
        kmBind (runScriptOracle (addActionScript macroIdentifier tempPath)) (fun _ =>
          kmBind (runScriptOracle (countActionsScript macroIdentifier)) (fun c2 =>
            let afterCount := jsParseIntOr0 c2
            if afterCount ≤ beforeCount then
              kmThrow "Action was not created - XML may be invalid or malformed"
            else
              kmPure ("Action added to macro \"" ++ macroIdentifier ++ "\"")))))
      (fun e => "Failed to add action: " ++ e)
      (cleanupTempFile tempPath)
      staged.2

/-- The make-new-trigger script of `addTrigger` (src/src/tools/macros.ts
lines 309-316). -/
def addTriggerScript (macroIdentifier tempPath : String) : String :=
  "\nset xmlContent to read POSIX file \"" ++ tempPath ++
  "\" as «class utf8»\ntell application \"Keyboard Maestro\"\n  set theMacro to first macro whose name is \"" ++
  macroIdentifier ++ "\" or id is \"" ++ macroIdentifier ++
  "\"\n  tell theMacro\n    make new trigger with properties \x7bxml:xmlContent\x7d\n  end tell\nend tell"

/-- `addTrigger` (src/src/tools/macros.ts lines 306-325): stage, run, wrap
errors, always release. -/
def addTrigger (macroIdentifier triggerXml : String) : KM String := fun st =>
  let staged := writeTempXml triggerXml st
  match staged.1 with
  | Except.error e => (Except.error e, staged.2)
  | Except.ok tempPath =>
    tryCatchFinally
      (kmBind (runScriptOracle (addTriggerScript macroIdentifier tempPath)) (fun _ =>
        kmPure ("Trigger added to macro \"" ++ macroIdentifier ++ "\"")))
      (fun e => "Failed to add trigger: " ++ e)
      (cleanupTempFile tempPath)
      staged.2

/-- The set-action-xml script of `setActionXml` (src/src/tools/macros.ts
lines 508-515). -/
def setActionXmlScript (macroIdentifier : String) (actionIndex : Nat) (tempPath : String) : String :=
  "\nset xmlContent to read POSIX file \"" ++ tempPath ++
  "\" as «class utf8»\ntell application \"Keyboard Maestro\"\n  set theMacro to first macro whose name is \"" ++
  macroIdentifier ++ "\" or id is \"" ++ macroIdentifier ++
  "\"\n  tell theMacro\n    set xml of action " ++ Nat.repr actionIndex ++
  " to xmlContent\n  end tell\nend tell"

/-- `setActionXml` (src/src/tools/macros.ts lines 505-524): stage, run,
wrap errors, always release. -/
def setActionXml (macroIdentifier : String) (actionIndex : Nat) (xml : String) : KM String := fun st =>
  let staged := writeTempXml xml st
  match staged.1 with
  | Except.error e => (Except.error e, staged.2)
  | Except.ok tempPath =>
    tryCatchFinally
      (kmBind (runScriptOracle (setActionXmlScript macroIdentifier actionIndex tempPath)) (fun _ =>
        kmPure ("Action " ++ Nat.repr actionIndex ++ " in macro \"" ++ macroIdentifier ++
                "\" updated successfully")))
      (fun e => "Failed to set action XML: " ++ e)
      (cleanupTempFile tempPath)
      staged.2

/-- The set-trigger-xml script of `setTriggerXml` (src/src/tools/macros.ts
lines 670-677). -/
def setTriggerXmlScript (macroIdentifier : String) (triggerIndex : Nat) (tempPath : String) : String :=
  "\nset xmlContent to read POSIX file \"" ++ tempPath ++
  "\" as «class utf8»\ntell application \"Keyboard Maestro\"\n  set theMacro to first macro whose name is \"" ++
  macroIdentifier ++ "\" or id is \"" ++ macroIdentifier ++
  "\"\n  tell theMacro\n    set xml of trigger " ++ Nat.repr triggerIndex ++
  " to xmlContent\n  end tell\nend tell"

/-- `setTriggerXml` (src/src/tools/macros.ts lines 667-686): stage, run,
wrap errors, always release. -/
def setTriggerXml (macroIdentifier : String) (triggerIndex : Nat) (xml : String) : KM String := fun st =>
  let staged := writeTempXml xml st
  match staged.1 with
  | Except.error e => (Except.error e, staged.2)
  | Except.ok tempPath =>
    tryCatchFinally
      (kmBind (runScriptOracle (setTriggerXmlScript macroIdentifier triggerIndex tempPath)) (fun _ =>
        kmPure ("Trigger " ++ Nat.repr triggerIndex ++ " in macro \"" ++ macroIdentifier ++
                "\" updated successfully")))
      (fun e => "Failed to set trigger XML: " ++ e)
      (cleanupTempFile tempPath)
      staged.2

/-- The staged-file paths recorded in a trace, in order. -/
def stagedPaths (tr : List KMEvent) : List String :=
  tr.filterMap (fun ev => match ev with | KMEvent.staged p => some p | _ => none)

/-- The released-file paths recorded in a trace, in order. -/
def releasedPaths (tr : List KMEvent) : List String :=
  tr.filterMap (fun ev => match ev with | KMEvent.released p => some p | _ => none)

/-- Build a starting state from a clock reading, an oracle queue and the
unlink fault flag, with an empty scratch directory and empty trace. -/
def mkSt (clock : Nat) (queue : List (Except String String)) (unlinkOk : Bool) : KMSt :=
  { clock := clock, fs := [], queue := queue, unlinkOk := unlinkOk, trace := [] }

/-!
## Result decoders (the Result Decoder component)

Each `...Decode` function is the post-processing that the corresponding
list operation applies to the raw trimmed stdout of its control script.
-/

/-- Summary record produced by `listMacros` / `searchMacros`. -/
structure MacroInfo where
  name : String
  uid : String
deriving DecidableEq, Repr

/-- Group record produced by `listGroups`. -/
structure GroupInfo where
  name : String
  uid : String
deriving DecidableEq, Repr

/-- Action record produced by `listActions`; `index` is `none` when
`parseInt` yielded `NaN`, `name` is `none` when the field was absent. -/
structure ActionInfo where
  index : Option Int
  name : Option String
  enabled : Bool
deriving DecidableEq, Repr

/-- Record-decoding of `listMacros` (src/src/tools/macros.ts lines 82-90):
blank output is zero records; otherwise split on the record token,
split each record on the field token, defaulting missing or empty fields
to the empty string.  No record is filtered out. -/
def listMacrosDecode (raw : String) : List MacroInfo :=
  if jsTrim raw = "" then []
  else
    (jsSplitL (";;;").data raw.data).map (fun item =>
      let fields := jsSplitL ("|||").data item
      { name := String.mk (fields.getD 0 []), uid := String.mk (fields.getD 1 []) })

/-- Record-decoding of `searchMacros` (src/src/tools/macros.ts lines
120-128); same shape as `listMacrosDecode`. -/
def searchMacrosDecode (raw : String) : List MacroInfo :=
  if jsTrim raw = "" then []
  else
    (jsSplitL (";;;").data raw.data).map (fun item =>
      let fields := jsSplitL ("|||").data item
      { name := String.mk (fields.getD 0 []), uid := String.mk (fields.getD 1 []) })

/-- Record-decoding of `listGroups` (src/src/tools/macros.ts lines 402-407):
fields are additionally trimmed and records whose name is empty are
filtered out. -/
def listGroupsDecode (raw : String) : List GroupInfo :=
  if jsTrim raw = "" then []
  else
    ((jsSplitL (";;;").data raw.data).map (fun item =>
      let fields := jsSplitL ("|||").data item
      ({ name := String.mk (jsTrimL (fields.getD 0 [])),
         uid := String.mk (jsTrimL (fields.getD 1 [])) } : GroupInfo))).filter
      (fun g => g.name ≠ "")

/-- Record-decoding of `listActions` (src/src/tools/macros.ts lines
606-615): index via `parseInt`, `enabled` compared against the text
`true`; no record is filtered out. -/
def listActionsDecode (raw : String) : List ActionInfo :=
  if jsTrim raw = "" then []
  else
    (jsSplitL (";;;").data raw.data).map (fun item =>
      let fields := jsSplitL ("|||").data item
      { index := jsParseInt? (String.mk (fields.getD 0 [])),
        name := (fields.get? 1).map String.mk,
        enabled := fields.getD 2 [] = ("true").data })

/-!
## Log analyzer (src/src/tools/logs.ts)
-/

/-- Structured log entry (src/src/tools/logs.ts lines 8-16); the `Date`
value is modelled as epoch milliseconds (the local-time offset of the
JavaScript parser is modelled as zero, a constant shift that cancels in
every comparison the code makes). -/
structure LogEntry where
  timestamp : String
  dateMs : Int
  message : String
  isError : Bool
  macroName : Option String
  actionId : Option String
deriving DecidableEq, Repr

/-- Days since 1970-01-01 of a proleptic-Gregorian civil date
(the standard era-based conversion). -/
def daysFromCivil (y : Int) (m d : Nat) : Int :=
  let y1 : Int := if m ≤ 2 then y - 1 else y
  let era : Int := (if 0 ≤ y1 then y1 else y1 - 399) / 400
  let yoe : Int := y1 - era * 400
  let mp : Nat := (m + 9) % 12
  let doy : Int := ((153 * mp + 2) / 5 : Nat) + d - 1
  let doe : Int := yoe * 365 + yoe / 4 - yoe / 100 + doy
  era * 146097 + doe - 719468

/-- Epoch milliseconds of a civil date-time, the model of
`new Date("YYYY-MM-DD HH:MM:SS").getTime()`. -/
def dateMsOf (y mo d h mi s : Nat) : Int :=
  (daysFromCivil y mo d * 86400 + (h * 3600 + mi * 60 + s : Nat)) * 1000

/-- Greedy-with-backtracking split of the text after the timestamp against
the regex tail `\s+(.+)$`: at least one whitespace character, then a
non-empty newline-free remainder (group 2). -/
def msgAfterWs (rest : List Char) : Option (List Char) :=
  let k := (rest.takeWhile jsIsSpace).length
  if k = 0 then none
  else
    let j := if k < rest.length then k else k - 1
    if j = 0 then none
    else
      let msg := rest.drop j
      if msg.isEmpty then none
      else if msg.all (fun c => c ≠ (Char.ofNat 10)) then some msg else none

/-- Anchored match of `^(\d{4}-\d{2}-\d{2}\s+\d{2}:\d{2}:\d{2})\s+(.+)$`
(src/src/tools/logs.ts line 23), returning the six numeric fields, the
matched timestamp text (group 1) and the message (group 2). -/
def matchTsLine (l : List Char) :
    Option (Nat × Nat × Nat × Nat × Nat × Nat × List Char × List Char) :=
  match l with
  | y1 :: y2 :: y3 :: y4 :: '-' :: m1 :: m2 :: '-' :: d1 :: d2 :: rest =>
    if isDigitC y1 && isDigitC y2 && isDigitC y3 && isDigitC y4 &&
       isDigitC m1 && isDigitC m2 && isDigitC d1 && isDigitC d2 then
      let ws := rest.takeWhile jsIsSpace
      if ws.isEmpty then none
      else
        match rest.drop ws.length with
        | h1 :: h2 :: ':' :: n1 :: n2 :: ':' :: s1 :: s2 :: rest2 =>
          if isDigitC h1 && isDigitC h2 && isDigitC n1 && isDigitC n2 &&
             isDigitC s1 && isDigitC s2 then
            match msgAfterWs rest2 with
            | none => none
            | some msg =>
              some (digitVal y1 * 1000 + digitVal y2 * 100 + digitVal y3 * 10 + digitVal y4,
                    digitVal m1 * 10 + digitVal m2,
                    digitVal d1 * 10 + digitVal d2,
                    digitVal h1 * 10 + digitVal h2,
                    digitVal n1 * 10 + digitVal n2,
                    digitVal s1 * 10 + digitVal s2,
                    [y1, y2, y3, y4, '-', m1, m2, '-', d1, d2] ++ ws ++
                      [h1, h2, ':', n1, n2, ':', s1, s2],
                    msg)
          else none
        | _ => none
    else none
  | _ => none

/-- Leftmost-match capture of `lit("([^"]+)"` style patterns: find the
first occurrence of the literal that is followed by at least one non-quote
character and a closing quote, and return the captured run. -/
def tryCapAt (pat s : List Char) : Option (List Char) :=
  if isPre pat s then
    let after := s.drop pat.length
    let nm := after.takeWhile (fun c => c ≠ '"')
    if nm.isEmpty then none
    else if nm.length < after.length then some nm else none
  else none

/-- Scan left to right for the first position where `tryCapAt` succeeds
(regex leftmost-match semantics). -/
def captureQuoted (pat : List Char) : List Char → Option (List Char)
  | [] => none
  | s@(_ :: rest) =>
    match tryCapAt pat s with
    | some r => some r
    | none => captureQuoted pat rest

/-- Leftmost-match capture of `Action (\d+)`: the literal followed by at
least one digit, capturing the digit run. -/
def captureDigits (pat : List Char) : List Char → Option (List Char)
  | [] => none
  | s@(_ :: rest) =>
    if isPre pat s then
      let ds := (s.drop pat.length).takeWhile isDigitC
      if ds.isEmpty then captureDigits pat rest else some ds
    else
      captureDigits pat rest

/-- Error-keyword classification `/failed|error|cancelled|timeout/i.test`
(src/src/tools/logs.ts line 29), modelled over ASCII case folding. -/
def isErrorMsg (msg : List Char) : Bool :=
  let low := msg.map lowerAscii
  containsL low ("failed").data || containsL low ("error").data ||
  containsL low ("cancelled").data || containsL low ("timeout").data

/-- `parseLogLine` (src/src/tools/logs.ts lines 21-60): drop lines without
the timestamp prefix; classify errors by keyword; extract the macro name
by the pattern `Macro "..."` first and `Execute macro "..."` second; extract
a numeric action id. -/
def parseLogLine (line : String) : Option LogEntry :=
  match matchTsLine line.data with
  | none => none
  | some (y, mo, d, h, mi, s, ts, msg) =>
    let macroName :=
      match captureQuoted ("Macro \"").data msg with
      | some nm => some nm
      | none => captureQuoted ("Execute macro \"").data msg
    some { timestamp := String.mk ts,
           dateMs := dateMsOf y mo d h mi s,
           message := String.mk msg,
           isError := isErrorMsg msg,
           macroName := macroName.map String.mk,
           actionId := (captureDigits ("Action ").data msg).map String.mk }

/-- `readEngineLog` (src/src/tools/logs.ts lines 65-104) applied to the
file contents: split into lines, keep non-blank ones, keep the last
`lines` of them (`slice(-lines)`, which for the literal `-0` keeps all),
parse, then apply the errors-only, since and macro-name filters. -/
def readEngineLogOn (content : String) (lines : Nat) (errorsOnly : Bool)
    (since : Option Int) (macroFilter : Option String) : List LogEntry :=
  let allLines := ((jsSplitL [Char.ofNat 10] content.data).map String.mk).filter
    (fun l => jsTrim l ≠ "")
  let recent := if lines = 0 then allLines else allLines.drop (allLines.length - lines)
  let entries := recent.filterMap parseLogLine
  let entries := if errorsOnly then entries.filter (fun e => e.isError) else entries
  let entries :=
    match since with
    | some s => entries.filter (fun e => decide (s ≤ e.dateMs))
    | none => entries
  match macroFilter with
  | none => entries
  | some f =>
    if f = "" then entries
    else
      entries.filter (fun e =>
        match e.macroName with
        | some n => containsL (n.data.map lowerAscii) (f.data.map lowerAscii)
        | none => false)

/-- Per-group aggregate of `getErrorSummary`. -/
structure ErrStats where
  count : Nat
  lastError : String
  lastTime : String
deriving DecidableEq, Repr

/-- The grouping key of `getErrorSummary`: `entry.macroName || 'Unknown'`
(an absent name, and the falsy empty string, group under Unknown). -/
def summaryKey (e : LogEntry) : String :=
  match e.macroName with
  | some n => if n = "" then "Unknown" else n
  | none => "Unknown"

/-- One step of the aggregation loop of `getErrorSummary`
(src/src/tools/logs.ts lines 136-144), over an insertion-ordered
association list standing for the JavaScript object. -/
def updateGroup (gs : List (String × ErrStats)) (e : LogEntry) :
    List (String × ErrStats) :=
  let key := summaryKey e
  if gs.any (fun p => p.1 = key) then
    gs.map (fun p =>
      if p.1 = key then
        (p.1, { count := p.2.count + 1, lastError := e.message, lastTime := e.timestamp })
      else p)
  else
    gs ++ [(key, { count := 1, lastError := e.message, lastTime := e.timestamp })]

/-- Result shape of `getErrorSummary`. -/
structure ErrorSummary where
  totalErrors : Nat
  errorsByMacro : List (String × ErrStats)
  recentErrors : List LogEntry
deriving DecidableEq, Repr

/-- `getErrorSummary` (src/src/tools/logs.ts lines 126-151) applied to the
engine-log contents and the current clock: last 5000 non-blank lines,
errors only, inside the lookback window, grouped by macro name, with the
last 10 entries kept as recent errors (`slice(-10)`). -/
def getErrorSummaryOn (content : String) (hours : Nat) (nowMs : Int) : ErrorSummary :=
  let entries := readEngineLogOn content 5000 true (some (nowMs - (hours * 3600000 : Nat))) none
  { totalErrors := entries.length,
    errorsByMacro := entries.foldl updateGroup [],
    recentErrors := entries.drop (entries.length - 10) }

/-!
## moveAction (src/src/tools/macros.ts lines 624-643)
-/

/-- Fixed text of the `moveAction` template up to the interpolated new
index inside the condition. -/
def maSeg0 : String :=
  "\ntell application \"Keyboard Maestro\"\n  set theMacro to first macro whose name is \""

/-- `moveAction` template between the two identifier slots. -/
def maSeg1 : String := "\" or id is \""

/-- `moveAction` template from the identifier to the condition. -/
def maSeg2 : String := "\"\n  tell theMacro\n    if "

/-- `moveAction` template between the condition index and the then-branch
action index. -/
def maSeg3 : String := " > count of actions then\n      move action "

/-- `moveAction` template between the then branch and the else branch. -/
def maSeg4 : String := " to after last action\n    else\n      move action "

/-- `moveAction` template between the else-branch action index and the
anchor index. -/
def maSeg5 : String := " to before action "

/-- `moveAction` template, final segment. -/
def maSeg6 : String := "\n    end if\n  end tell\nend tell"

/-- The control script built by `moveAction`: a runtime conditional in the
scripting language choosing between moving after the last action and
moving before the action at the new index. -/
def moveActionScript (macroIdentifier : String) (actionIndex newIndex : Nat) : String :=
  maSeg0 ++ macroIdentifier ++ maSeg1 ++ macroIdentifier ++ maSeg2 ++
  Nat.repr newIndex ++ maSeg3 ++ Nat.repr actionIndex ++ maSeg4 ++
  Nat.repr actionIndex ++ maSeg5 ++ Nat.repr newIndex ++ maSeg6

/-- Where the generated `moveAction` script sends the action. -/
inductive MoveDest where
  | afterLast : MoveDest
  | beforeIndex : Nat → MoveDest
deriving DecidableEq, Repr

/-- Modelled from the embedded conditional of `moveActionScript`: when the
requested new index exceeds the action count the action goes after the last
action, otherwise before the action at the new index; no branch raises an
out-of-range error. -/
def moveDest (actionCount newIndex : Nat) : MoveDest :=
  if actionCount < newIndex then MoveDest.afterLast else MoveDest.beforeIndex newIndex

/-!
## Remote-call handlers with a numeric index (src/src/index.ts)

Each handler validates with JavaScript truthiness (`if (!x) throw ...`)
before any external call; an `Except.ok` value stands for the argument
tuple handed on to the tool function (and hence to the external process),
an `Except.error` for the validation error thrown first.
-/

/-- Truthiness of an optional string argument (`undefined` and the empty
string are falsy). -/
def jsTruthyStr : Option String → Bool
  | none => false
  | some s => s ≠ ""

/-- Truthiness of an optional numeric argument (`undefined` and `0` are
falsy). -/
def jsTruthyNum : Option Int → Bool
  | none => false
  | some n => n ≠ 0

/-- `km_get_action_xml` handler (src/src/index.ts lines 887-894). -/
def kmGetActionXmlHandler (macroIdentifier : Option String) (actionIndex : Option Int) :
    Except String (String × Int) :=
  if ¬ jsTruthyStr macroIdentifier then Except.error "macroIdentifier is required"
  else if ¬ jsTruthyNum actionIndex then Except.error "actionIndex is required"
  else Except.ok (macroIdentifier.getD "", actionIndex.getD 0)

/-- `km_set_action_xml` handler (src/src/index.ts lines 896-905). -/
def kmSetActionXmlHandler (macroIdentifier : Option String) (actionIndex : Option Int)
    (xml : Option String) : Except String (String × Int × String) :=
  if ¬ jsTruthyStr macroIdentifier then Except.error "macroIdentifier is required"
  else if ¬ jsTruthyNum actionIndex then Except.error "actionIndex is required"
  else if ¬ jsTruthyStr xml then Except.error "xml is required"
  else Except.ok (macroIdentifier.getD "", actionIndex.getD 0, xml.getD "")

/-- `km_delete_action` handler (src/src/index.ts lines 921-928). -/
def kmDeleteActionHandler (macroIdentifier : Option String) (actionIndex : Option Int) :
    Except String (String × Int) :=
  if ¬ jsTruthyStr macroIdentifier then Except.error "macroIdentifier is required"
  else if ¬ jsTruthyNum actionIndex then Except.error "actionIndex is required"
  else Except.ok (macroIdentifier.getD "", actionIndex.getD 0)

/-- `km_get_trigger_xml` handler (src/src/index.ts lines 994-1001). -/
def kmGetTriggerXmlHandler (macroIdentifier : Option String) (triggerIndex : Option Int) :
    Except String (String × Int) :=
  if ¬ jsTruthyStr macroIdentifier then Except.error "macroIdentifier is required"
  else if ¬ jsTruthyNum triggerIndex then Except.error "triggerIndex is required"
  else Except.ok (macroIdentifier.getD "", triggerIndex.getD 0)

/-- `km_set_trigger_xml` handler (src/src/index.ts lines 1003-1012). -/
def kmSetTriggerXmlHandler (macroIdentifier : Option String) (triggerIndex : Option Int)
    (xml : Option String) : Except String (String × Int × String) :=
  if ¬ jsTruthyStr macroIdentifier then Except.error "macroIdentifier is required"
  else if ¬ jsTruthyNum triggerIndex then Except.error "triggerIndex is required"
  else if ¬ jsTruthyStr xml then Except.error "xml is required"
  else Except.ok (macroIdentifier.getD "", triggerIndex.getD 0, xml.getD "")

/-- `km_delete_trigger` handler (src/src/index.ts lines 939-946). -/
def kmDeleteTriggerHandler (macroIdentifier : Option String) (triggerIndex : Option Int) :
    Except String (String × Int) :=
  if ¬ jsTruthyStr macroIdentifier then Except.error "macroIdentifier is required"
  else if ¬ jsTruthyNum triggerIndex then Except.error "triggerIndex is required"
  else Except.ok (macroIdentifier.getD "", triggerIndex.getD 0)

/-- `km_search_replace_action` handler (src/src/index.ts lines 907-919);
`replaceText` is checked against `undefined` only, so the empty string is
allowed there. -/
def kmSearchReplaceActionHandler (macroIdentifier : Option String) (actionIndex : Option Int)
    (searchText replaceText : Option String) : Except String (String × Int × String × String) :=
  if ¬ jsTruthyStr macroIdentifier then Except.error "macroIdentifier is required"
  else if ¬ jsTruthyNum actionIndex then Except.error "actionIndex is required"
  else if ¬ jsTruthyStr searchText then Except.error "searchText is required"
  else if replaceText.isNone then Except.error "replaceText is required"
  else Except.ok (macroIdentifier.getD "", actionIndex.getD 0, searchText.getD "",
                  replaceText.getD "")


/-!
## Helper lemmas
-/

theorem scanL_append (st : ScanSt) (a b : List Char) :
    scanL st (a ++ b) = scanL (scanL st a) b :=
  List.foldl_append ..

theorem scanChar_in_plain (c : Char) (hq : c ≠ '"') (hb : c ≠ '\\') :
    scanChar ScanSt.inStr c = ScanSt.inStr := by
  simp [scanChar, hq, hb]

theorem scanChar_out_plain (c : Char) (hq : c ≠ '"') :
    scanChar ScanSt.outside c = ScanSt.outside := by
  simp [scanChar, hq]

theorem scanL_noSpecial_in (l : List Char) (h : ∀ c ∈ l, c ≠ '"' ∧ c ≠ '\\') :
    scanL ScanSt.inStr l = ScanSt.inStr := by
  induction l with
  | nil => rfl
  | cons c rest ih =>
    have hc := h c (List.mem_cons_self c rest)
    show scanL (scanChar ScanSt.inStr c) rest = ScanSt.inStr
    rw [scanChar_in_plain c hc.1 hc.2]
    exact ih (fun d hd => h d (List.mem_cons_of_mem c hd))

theorem scanL_noSpecial_out (l : List Char) (h : ∀ c ∈ l, c ≠ '"' ∧ c ≠ '\\') :
    scanL ScanSt.outside l = ScanSt.outside := by
  induction l with
  | nil => rfl
  | cons c rest ih =>
    have hc := h c (List.mem_cons_self c rest)
    show scanL (scanChar ScanSt.outside c) rest = ScanSt.outside
    rw [scanChar_out_plain c hc.1]
    exact ih (fun d hd => h d (List.mem_cons_of_mem c hd))

theorem scanL_expandQ_in (l : List Char) (h : ∀ c ∈ l, c ≠ '\\') :
    scanL ScanSt.inStr (expandQ l) = ScanSt.inStr := by
  induction l with
  | nil => rfl
  | cons c rest ih =>
    have hc := h c (List.mem_cons_self c rest)
    have ih' := ih (fun d hd => h d (List.mem_cons_of_mem c hd))
    by_cases hq : c = '"'
    · show scanL ScanSt.inStr ((if c = '"' then ['\\', '"'] else [c]) ++ expandQ rest) = ScanSt.inStr
      rw [if_pos hq, scanL_append]
      have : scanL ScanSt.inStr ['\\', '"'] = ScanSt.inStr := by decide
      rw [this]
      exact ih'
    · show scanL ScanSt.inStr ((if c = '"' then ['\\', '"'] else [c]) ++ expandQ rest) = ScanSt.inStr
      rw [if_neg hq, scanL_append]
      have : scanL ScanSt.inStr [c] = ScanSt.inStr := by
        show scanL (scanChar ScanSt.inStr c) [] = ScanSt.inStr
        rw [scanChar_in_plain c hq hc]
        rfl
      rw [this]
      exact ih'

theorem scanL_escFull_in (l : List Char) :
    scanL ScanSt.inStr (expandQ (expandB l)) = ScanSt.inStr := by
  induction l with
  | nil => rfl
  | cons c rest ih =>
    show scanL ScanSt.inStr
      (expandQ ((if c = '\\' then ['\\', '\\'] else [c]) ++ expandB rest)) = ScanSt.inStr
    by_cases hb : c = '\\'
    · rw [if_pos hb]
      have : expandQ (['\\', '\\'] ++ expandB rest) = ['\\', '\\'] ++ expandQ (expandB rest) := by
        simp [expandQ]
      rw [this, scanL_append]
      have h2 : scanL ScanSt.inStr ['\\', '\\'] = ScanSt.inStr := by decide
      rw [h2]
      exact ih
    · rw [if_neg hb]
      by_cases hq : c = '"'
      · have : expandQ ([c] ++ expandB rest) = ['\\', '"'] ++ expandQ (expandB rest) := by
          simp [expandQ, hq]
        rw [this, scanL_append]
        have h2 : scanL ScanSt.inStr ['\\', '"'] = ScanSt.inStr := by decide
        rw [h2]
        exact ih
      · have : expandQ ([c] ++ expandB rest) = [c] ++ expandQ (expandB rest) := by
          simp [expandQ, hq]
        rw [this, scanL_append]
        have h2 : scanL ScanSt.inStr [c] = ScanSt.inStr := by
          show scanL (scanChar ScanSt.inStr c) [] = ScanSt.inStr
          rw [scanChar_in_plain c hq hb]
          rfl
        rw [h2]
        exact ih

theorem digitChar_notSpecial (m : Nat) :
    Nat.digitChar m ≠ '"' ∧ Nat.digitChar m ≠ '\\' := by
  rcases Nat.lt_or_ge m 16 with h | h
  · interval_cases m <;> exact ⟨by decide, by decide⟩
  · have e : Nat.digitChar m = '*' := by
      unfold Nat.digitChar
      have h0 : m ≠ 0 := by omega
      have h1 : m ≠ 1 := by omega
      have h2 : m ≠ 2 := by omega
      have h3 : m ≠ 3 := by omega
      have h4 : m ≠ 4 := by omega
      have h5 : m ≠ 5 := by omega
      have h6 : m ≠ 6 := by omega
      have h7 : m ≠ 7 := by omega
      have h8 : m ≠ 8 := by omega
      have h9 : m ≠ 9 := by omega
      have h10 : m ≠ 10 := by omega
      have h11 : m ≠ 11 := by omega
      have h12 : m ≠ 12 := by omega
      have h13 : m ≠ 13 := by omega
      have h14 : m ≠ 14 := by omega
      have h15 : m ≠ 15 := by omega
      simp [h0, h1, h2, h3, h4, h5, h6, h7, h8, h9, h10, h11, h12, h13, h14, h15]
    rw [e]
    exact ⟨by decide, by decide⟩

theorem toDigitsCore_chars (f : Nat) :
    ∀ (n : Nat) (acc : List Char), (∀ c ∈ acc, c ≠ '"' ∧ c ≠ '\\') →
      ∀ c ∈ Nat.toDigitsCore 10 f n acc, c ≠ '"' ∧ c ≠ '\\' := by
  induction f with
  | zero =>
    intro n acc hacc c hc
    exact hacc c hc
  | succ f ih =>
    intro n acc hacc c hc
    unfold Nat.toDigitsCore at hc
    by_cases h : n / 10 = 0
    · rw [if_pos h] at hc
      rcases List.mem_cons.mp hc with h1 | h2
      · rw [h1]; exact digitChar_notSpecial (n % 10)
      · exact hacc c h2
    · rw [if_neg h] at hc
      refine ih (n / 10) (Nat.digitChar (n % 10) :: acc) ?_ c hc
      intro d hd
      rcases List.mem_cons.mp hd with h1 | h2
      · rw [h1]; exact digitChar_notSpecial (n % 10)
      · exact hacc d h2

theorem repr_chars (n : Nat) : ∀ c ∈ (Nat.repr n).data, c ≠ '"' ∧ c ≠ '\\' := by
  have h : (Nat.repr n).data = Nat.toDigitsCore 10 (n + 1) n [] := rfl
  rw [h]
  exact toDigitsCore_chars (n + 1) n [] (by intro c hc; cases hc)

theorem toDigitsCore_acc10 (f : Nat) :
    ∀ (n : Nat) (acc : List Char),
      Nat.toDigitsCore 10 f n acc = Nat.toDigitsCore 10 f n [] ++ acc := by
  induction f with
  | zero =>
    intro n acc
    rfl
  | succ f ih =>
    intro n acc
    unfold Nat.toDigitsCore
    by_cases h : n / 10 = 0
    · rw [if_pos h, if_pos h]
      rfl
    · rw [if_neg h, if_neg h]
      rw [ih (n / 10) (Nat.digitChar (n % 10) :: acc),
          ih (n / 10) (Nat.digitChar (n % 10) :: [])]
      simp

theorem toDigitsCore_fuel (n : Nat) :
    ∀ (f g : Nat) (acc : List Char), n < f → n < g →
      Nat.toDigitsCore 10 f n acc = Nat.toDigitsCore 10 g n acc := by
  induction n using Nat.strong_induction_on with
  | _ n ih =>
    intro f g acc hf hg
    match f, g with
    | f' + 1, g' + 1 =>
      unfold Nat.toDigitsCore
      by_cases h : n / 10 = 0
      · rw [if_pos h, if_pos h]
      · rw [if_neg h, if_neg h]
        have hn : 0 < n := by
          rcases Nat.eq_zero_or_pos n with h0 | h0
          · rw [h0] at h; exact absurd rfl h
          · exact h0
        have hlt : n / 10 < n := Nat.div_lt_self hn (by decide)
        exact ih (n / 10) hlt f' g' _ (by omega) (by omega)

theorem val_digitChar (m : Nat) (hm : m < 10) : digitVal (Nat.digitChar m) = m := by
  interval_cases m
  all_goals decide

theorem decDigits_val (n : Nat) :
    (Nat.toDigits 10 n).foldl (fun a c => 10 * a + digitVal c) 0 = n := by
  induction n using Nat.strong_induction_on with
  | _ n ih =>
    by_cases h : n / 10 = 0
    · have hn : n < 10 := by
        have := Nat.div_add_mod n 10
        have h2 : n % 10 < 10 := Nat.mod_lt n (by decide)
        omega
      have hsimp : Nat.toDigits 10 n = [Nat.digitChar (n % 10)] := by
        unfold Nat.toDigits Nat.toDigitsCore
        rw [if_pos h]
      rw [hsimp]
      have : n % 10 = n := Nat.mod_eq_of_lt hn
      simp [List.foldl, val_digitChar (n % 10) (Nat.mod_lt n (by decide))]
      omega
    · have hn : 0 < n := by
        rcases Nat.eq_zero_or_pos n with h0 | h0
        · rw [h0] at h; exact absurd rfl h
        · exact h0
      have hlt : n / 10 < n := Nat.div_lt_self hn (by decide)
      have hstep : Nat.toDigits 10 n =
          Nat.toDigits 10 (n / 10) ++ [Nat.digitChar (n % 10)] := by
        show Nat.toDigitsCore 10 (n + 1) n [] = _
        unfold Nat.toDigitsCore
        rw [if_neg h]
        rw [toDigitsCore_acc10 n (n / 10) (Nat.digitChar (n % 10) :: [])]
        rw [toDigitsCore_fuel (n / 10) n (n / 10 + 1) [] hlt (by omega)]
        rfl
      rw [hstep, List.foldl_append]
      rw [ih (n / 10) hlt]
      have h2 : n % 10 < 10 := Nat.mod_lt n (by decide)
      simp [List.foldl, val_digitChar (n % 10) h2]
      have := Nat.div_add_mod n 10
      omega

theorem repr_data_injective (m n : Nat)
    (h : (Nat.repr m).data = (Nat.repr n).data) : m = n := by
  have hd : Nat.toDigits 10 m = Nat.toDigits 10 n := h
  have hv := congrArg (fun l : List Char => l.foldl (fun a c => 10 * a + digitVal c) 0) hd
  simpa [decDigits_val] using hv

theorem tempPathFor_injective (t1 t2 : Nat) (h : tempPathFor t1 = tempPathFor t2) :
    t1 = t2 := by
  have hd := congrArg String.data h
  simp only [tempPathFor, String.data_append] at hd
  have h1 := List.append_cancel_right hd
  have h2 := List.append_cancel_left h1
  exact repr_data_injective t1 t2 h2

theorem km_ite_apply {α : Type} (c : Prop) [Decidable c] (a b : KM α) (st : KMSt) :
    (if c then a else b) st = if c then a st else b st := by
  split <;> rfl

theorem addAction_trace (m x : String) (clk : Nat) (e1 e2 e3 : Except String String) (u : Bool) :
    stagedPaths (addAction m x (mkSt clk [e1, e2, e3] u)).2.trace = [tempPathFor clk] ∧
    releasedPaths (addAction m x (mkSt clk [e1, e2, e3] u)).2.trace = [tempPathFor clk] := by
  rcases u <;> rcases e1 with a1 | a1 <;> rcases e2 with a2 | a2 <;> rcases e3 with a3 | a3 <;>
    simp [addAction, writeTempXml, tryCatchFinally, kmBind, runScriptOracle, kmThrow, kmPure,
          cleanupTempFile, mkSt, stagedPaths, releasedPaths, List.filterMap] <;>
    split <;>
    simp [kmThrow, kmPure, stagedPaths, releasedPaths, List.filterMap]

theorem addAction_result_indep (m x : String) (clk : Nat) (e1 e2 e3 : Except String String) :
    (addAction m x (mkSt clk [e1, e2, e3] true)).1 =
      (addAction m x (mkSt clk [e1, e2, e3] false)).1 := by
  rcases e1 with a1 | a1 <;> rcases e2 with a2 | a2 <;> rcases e3 with a3 | a3 <;>
    simp [addAction, writeTempXml, tryCatchFinally, kmBind, runScriptOracle, kmThrow, kmPure,
          cleanupTempFile, mkSt, km_ite_apply, apply_ite]

theorem addTrigger_trace (m x : String) (clk : Nat) (e : Except String String) (u : Bool) :
    stagedPaths (addTrigger m x (mkSt clk [e] u)).2.trace = [tempPathFor clk] ∧
    releasedPaths (addTrigger m x (mkSt clk [e] u)).2.trace = [tempPathFor clk] := by
  rcases u <;> rcases e with a | a <;>
    simp [addTrigger, writeTempXml, tryCatchFinally, kmBind, runScriptOracle, kmThrow, kmPure,
          cleanupTempFile, mkSt, stagedPaths, releasedPaths, List.filterMap]

theorem addTrigger_result_indep (m x : String) (clk : Nat) (e : Except String String) :
    (addTrigger m x (mkSt clk [e] true)).1 = (addTrigger m x (mkSt clk [e] false)).1 := by
  rcases e with a | a <;>
    simp [addTrigger, writeTempXml, tryCatchFinally, kmBind, runScriptOracle, kmThrow, kmPure,
          cleanupTempFile, mkSt]

theorem setActionXml_trace (m : String) (i : Nat) (x : String) (clk : Nat)
    (e : Except String String) (u : Bool) :
    stagedPaths (setActionXml m i x (mkSt clk [e] u)).2.trace = [tempPathFor clk] ∧
    releasedPaths (setActionXml m i x (mkSt clk [e] u)).2.trace = [tempPathFor clk] := by
  rcases u <;> rcases e with a | a <;>
    simp [setActionXml, writeTempXml, tryCatchFinally, kmBind, runScriptOracle, kmThrow, kmPure,
          cleanupTempFile, mkSt, stagedPaths, releasedPaths, List.filterMap]

theorem setActionXml_result_indep (m : String) (i : Nat) (x : String) (clk : Nat)
    (e : Except String String) :
    (setActionXml m i x (mkSt clk [e] true)).1 = (setActionXml m i x (mkSt clk [e] false)).1 := by
  rcases e with a | a <;>
    simp [setActionXml, writeTempXml, tryCatchFinally, kmBind, runScriptOracle, kmThrow, kmPure,
          cleanupTempFile, mkSt]

theorem setTriggerXml_trace (m : String) (i : Nat) (x : String) (clk : Nat)
    (e : Except String String) (u : Bool) :
    stagedPaths (setTriggerXml m i x (mkSt clk [e] u)).2.trace = [tempPathFor clk] ∧
    releasedPaths (setTriggerXml m i x (mkSt clk [e] u)).2.trace = [tempPathFor clk] := by
  rcases u <;> rcases e with a | a <;>
    simp [setTriggerXml, writeTempXml, tryCatchFinally, kmBind, runScriptOracle, kmThrow, kmPure,
          cleanupTempFile, mkSt, stagedPaths, releasedPaths, List.filterMap]

theorem setTriggerXml_result_indep (m : String) (i : Nat) (x : String) (clk : Nat)
    (e : Except String String) :
    (setTriggerXml m i x (mkSt clk [e] true)).1 = (setTriggerXml m i x (mkSt clk [e] false)).1 := by
  rcases e with a | a <;>
    simp [setTriggerXml, writeTempXml, tryCatchFinally, kmBind, runScriptOracle, kmThrow, kmPure,
          cleanupTempFile, mkSt]

theorem dropWhile_of_all {p : Char → Bool} {l : List Char} (h : l.all p = true) :
    l.dropWhile p = [] := by
  induction l with
  | nil => rfl
  | cons c rest ih =>
    have hc : p c = true := (List.all_cons .. ▸ h : (p c && rest.all p) = true) |> Bool.and_elim_left
    have hr : rest.all p = true := (List.all_cons .. ▸ h : (p c && rest.all p) = true) |> Bool.and_elim_right
    rw [List.dropWhile_cons_of_pos hc]
    exact ih hr

theorem jsTrim_of_all_space (raw : String) (h : raw.data.all jsIsSpace = true) :
    jsTrim raw = "" := by
  unfold jsTrim jsTrimL
  rw [dropWhile_of_all h]
  rfl

/-!
## Claim theorems
-/

set_option maxRecDepth 40000 in
/-- C1, counterexample: the claim that every operation escapes at least the
double quote and the backslash in interpolated user strings, making the
generated program syntactically valid for every input, is false: `getMacro`
interpolates its identifier verbatim and `setVariable` escapes only quotes,
so a single backslash leaves an unterminated string literal in both
generated scripts. -/
theorem C1_escaping_counterexample :
    stringLiteralsClosed (getMacroScript "\\") = false ∧
    stringLiteralsClosed (setVariableScript "v" "\\") = false :=
  ⟨by decide, by decide⟩

set_option maxRecDepth 40000 in
/-- C1, amended: only `searchReplaceInAction` escapes both quote and
backslash (its search/replace text may contain anything); `searchMacros`
and the `setVariable` value get quote-only escaping, so their scripts are
well-formed only for backslash-free input; `getMacro` identifiers (and the
macro-identifier slots generally) are interpolated verbatim, so their
scripts are well-formed only for input free of quotes and backslashes. -/
theorem C1_escaping_amended (identifier q nm v m s r : String) (i : Nat)
    (hid : noSpecialChars identifier) (hq : noBackslash q)
    (hnm : noSpecialChars nm) (hv : noBackslash v)
    (hm : noSpecialChars m) :
    stringLiteralsClosed (getMacroScript identifier) = true ∧
    stringLiteralsClosed (searchMacrosScript q) = true ∧
    stringLiteralsClosed (setVariableScript nm v) = true ∧
    stringLiteralsClosed (searchReplaceScript m i s r) = true := by
  refine ⟨?_, ?_, ?_, ?_⟩
  · have h0 : scanL ScanSt.outside gmSeg0.data = ScanSt.inStr := by decide
    have h1 : scanL ScanSt.inStr gmSeg1.data = ScanSt.inStr := by decide
    have h2 : scanL ScanSt.inStr gmSeg2.data = ScanSt.outside := by decide
    unfold stringLiteralsClosed getMacroScript
    rw [decide_eq_true_eq]
    simp only [String.data_append, scanL_append]
    rw [h0, scanL_noSpecial_in identifier.data hid, h1,
        scanL_noSpecial_in identifier.data hid, h2]
  · have h0 : scanL ScanSt.outside smSeg0.data = ScanSt.inStr := by decide
    have h1 : scanL ScanSt.inStr smSeg1.data = ScanSt.outside := by decide
    unfold stringLiteralsClosed searchMacrosScript
    rw [decide_eq_true_eq]
    simp only [String.data_append, scanL_append]
    have hqd : (escQuotes q).data = expandQ q.data := rfl
    rw [h0, hqd, scanL_expandQ_in q.data hq, h1]
  · unfold stringLiteralsClosed setVariableScript
    rw [decide_eq_true_eq]
    simp only [String.data_append, scanL_append]
    have h0 : scanL ScanSt.outside
        ("tell application \"Keyboard Maestro Engine\" to setvariable \"").data =
        ScanSt.inStr := by
      decide
    have h1 : scanL ScanSt.inStr ("\" to \"").data = ScanSt.inStr := by decide
    have h2 : scanL ScanSt.inStr ("\"").data = ScanSt.outside := by decide
    have hvd : (escQuotes v).data = expandQ v.data := rfl
    rw [h0, scanL_noSpecial_in nm.data hnm, h1, hvd, scanL_expandQ_in v.data hv, h2]
  · have h0 : scanL ScanSt.outside srSeg0.data = ScanSt.inStr := by decide
    have h1 : scanL ScanSt.inStr srSeg1.data = ScanSt.inStr := by decide
    have h2 : scanL ScanSt.inStr srSeg2.data = ScanSt.outside := by decide
    have h3 : scanL ScanSt.outside srSeg3.data = ScanSt.inStr := by decide
    have h4 : scanL ScanSt.inStr srSeg4.data = ScanSt.inStr := by decide
    have h5 : scanL ScanSt.inStr srSeg5.data = ScanSt.outside := by decide
    have h6 : scanL ScanSt.outside srSeg6.data = ScanSt.outside := by decide
    unfold stringLiteralsClosed searchReplaceScript
    rw [decide_eq_true_eq]
    simp only [String.data_append, scanL_append]
    have hsd : (escFull s).data = expandQ (expandB s.data) := rfl
    have hrd : (escFull r).data = expandQ (expandB r.data) := rfl
    rw [h0, scanL_noSpecial_in m.data hm, h1, scanL_noSpecial_in m.data hm, h2,
        scanL_noSpecial_out (Nat.repr i).data (repr_chars i), h3, hsd,
        scanL_escFull_in s.data, h4, hrd, scanL_escFull_in r.data, h5,
        scanL_noSpecial_out (Nat.repr i).data (repr_chars i), h6]

set_option maxRecDepth 40000 in
/-- Witness for C1_escaping_amended at concrete inputs. -/
theorem C1_escaping_amended_witness :
    stringLiteralsClosed (getMacroScript "Morning Macro") = true ∧
    stringLiteralsClosed (searchMacrosScript "say \"hi\"") = true ∧
    stringLiteralsClosed (setVariableScript "MyVar" "a \"quoted\" value") = true ∧
    stringLiteralsClosed (searchReplaceScript "Morning Macro" 2 "find \"x\"\\path" "y") = true :=
  C1_escaping_amended "Morning Macro" "say \"hi\"" "MyVar" "a \"quoted\" value"
    "Morning Macro" "find \"x\"\\path" "y" 2
    (by unfold noSpecialChars; decide) (by unfold noBackslash; decide)
    (by unfold noSpecialChars; decide) (by unfold noBackslash; decide)
    (by unfold noSpecialChars; decide)

/-- C2: in `addAction`, when the recorded before-count is N, the mutation
script executes without error, and the re-read after-count is not strictly
greater than N, the operation fails with the wrapped "Action was not
created" error instead of returning success. -/
theorem C2_add_action_not_applied (m x out1 runOut out2 : String) (clk : Nat)
    (fs0 : List (String × String)) (u : Bool) (q : List (Except String String))
    (tr0 : List KMEvent)
    (h : jsParseIntOr0 out2 ≤ jsParseIntOr0 out1) :
    (addAction m x
      { clock := clk, fs := fs0,
        queue := Except.ok out1 :: Except.ok runOut :: Except.ok out2 :: q,
        unlinkOk := u, trace := tr0 }).1 =
      Except.error "Failed to add action: Action was not created - XML may be invalid or malformed" := by
  simp only [addAction, writeTempXml, tryCatchFinally, kmBind, runScriptOracle, kmPure]
  rw [if_pos h]
  simp only [kmThrow]
  decide

/-- Witness for C2_add_action_not_applied: counts 3 before and 3 after. -/
theorem C2_add_action_not_applied_witness :
    jsParseIntOr0 "3" ≤ jsParseIntOr0 "3" ∧
    (addAction "M" "<dict/>"
      { clock := 7, fs := [],
        queue := [Except.ok "3", Except.ok "", Except.ok "3"],
        unlinkOk := true, trace := [] }).1 =
      Except.error "Failed to add action: Action was not created - XML may be invalid or malformed" :=
  ⟨by decide,
   C2_add_action_not_applied "M" "<dict/>" "3" "" "3" 7 [] true [] [] (by decide)⟩

/-- C3: in each of `addAction`, `addTrigger`, `setActionXml` and
`setTriggerXml`, whatever outcome each script execution has, the run stages
exactly one payload file and releases exactly that file exactly once, and
the operation result is the same whether the deletion inside the release
succeeds or fails (release failures are swallowed). -/
theorem C3_stage_release_paired (m x : String) (i clk : Nat)
    (e1 e2 e3 e : Except String String) (u : Bool) :
    (stagedPaths (addAction m x (mkSt clk [e1, e2, e3] u)).2.trace = [tempPathFor clk] ∧
     releasedPaths (addAction m x (mkSt clk [e1, e2, e3] u)).2.trace = [tempPathFor clk]) ∧
    (addAction m x (mkSt clk [e1, e2, e3] true)).1 =
      (addAction m x (mkSt clk [e1, e2, e3] false)).1 ∧
    (stagedPaths (addTrigger m x (mkSt clk [e] u)).2.trace = [tempPathFor clk] ∧
     releasedPaths (addTrigger m x (mkSt clk [e] u)).2.trace = [tempPathFor clk]) ∧
    (addTrigger m x (mkSt clk [e] true)).1 = (addTrigger m x (mkSt clk [e] false)).1 ∧
    (stagedPaths (setActionXml m i x (mkSt clk [e] u)).2.trace = [tempPathFor clk] ∧
     releasedPaths (setActionXml m i x (mkSt clk [e] u)).2.trace = [tempPathFor clk]) ∧
    (setActionXml m i x (mkSt clk [e] true)).1 =
      (setActionXml m i x (mkSt clk [e] false)).1 ∧
    (stagedPaths (setTriggerXml m i x (mkSt clk [e] u)).2.trace = [tempPathFor clk] ∧
     releasedPaths (setTriggerXml m i x (mkSt clk [e] u)).2.trace = [tempPathFor clk]) ∧
    (setTriggerXml m i x (mkSt clk [e] true)).1 =
      (setTriggerXml m i x (mkSt clk [e] false)).1 :=
  ⟨addAction_trace m x clk e1 e2 e3 u, addAction_result_indep m x clk e1 e2 e3,
   addTrigger_trace m x clk e u, addTrigger_result_indep m x clk e,
   setActionXml_trace m i x clk e u, setActionXml_result_indep m i x clk e,
   setTriggerXml_trace m i x clk e u, setTriggerXml_result_indep m i x clk e⟩

set_option maxRecDepth 40000 in
/-- C4: on the spec scenario (three error lines for macro A of which one
falls before the 24-hour window, one error line for macro B inside it) the
summary reports three total errors and a count of 2 for A; in general the
recent-error list keeps at most the last 10 entries, and an entry without
an extracted macro name is grouped under the key Unknown. -/
theorem C4_error_summary :
    ((getErrorSummaryOn
        ("2025-01-01 08:00:00 Execute macro \"A\" failed\n2025-01-01 13:00:00 Execute macro \"A\" failed\n2025-01-02 09:00:00 Execute macro \"A\" failed\n2025-01-02 10:00:00 Execute macro \"B\" failed")
        24 (dateMsOf 2025 1 2 12 0 0)).totalErrors = 3 ∧
     (getErrorSummaryOn
        ("2025-01-01 08:00:00 Execute macro \"A\" failed\n2025-01-01 13:00:00 Execute macro \"A\" failed\n2025-01-02 09:00:00 Execute macro \"A\" failed\n2025-01-02 10:00:00 Execute macro \"B\" failed")
        24 (dateMsOf 2025 1 2 12 0 0)).errorsByMacro.lookup "A" =
       some { count := 2, lastError := "Execute macro \"A\" failed",
              lastTime := "2025-01-02 09:00:00" }) ∧
    (∀ content : String, ∀ hours : Nat, ∀ nowMs : Int,
      (getErrorSummaryOn content hours nowMs).recentErrors.length ≤ 10) ∧
    (∀ e : LogEntry, e.macroName = none → summaryKey e = "Unknown") := by
  refine ⟨⟨by decide, by decide⟩, ?_, ?_⟩
  · intro content hours nowMs
    simp only [getErrorSummaryOn, List.length_drop]
    omega
  · intro e h
    simp [summaryKey, h]

/-- Witness for C4_error_summary on the quantified parts. -/
theorem C4_error_summary_witness :
    (getErrorSummaryOn "" 24 0).recentErrors.length ≤ 10 ∧
    summaryKey { timestamp := "t", dateMs := 0, message := "m", isError := true,
                 macroName := none, actionId := none } = "Unknown" :=
  ⟨C4_error_summary.2.1 "" 24 0, C4_error_summary.2.2 _ rfl⟩

/-- C5, counterexample: `listMacros` and `searchMacros` keep records whose
name field is empty after trimming: the trailing spurious empty element of
`a|||1;;;` decodes to a record with empty name and is not filtered out,
refuting the claim that every list decoder filters such records. -/
theorem C5_empty_name_counterexample :
    listMacrosDecode "a|||1;;;" =
      [{ name := "a", uid := "1" }, { name := "", uid := "" }] ∧
    searchMacrosDecode "a|||1;;;" =
      [{ name := "a", uid := "1" }, { name := "", uid := "" }] ∧
    jsTrim "a|||1;;;" ≠ "" :=
  ⟨by decide, by decide, by decide⟩

/-- C5, amended: every list decoder turns blank raw output into zero
records, but only `listGroups` filters out records whose trimmed name is
empty; `listMacros`, `searchMacros` and `listActions` keep them. -/
theorem C5_decoders_amended (raw : String) :
    (raw.data.all jsIsSpace = true →
      listMacrosDecode raw = [] ∧ searchMacrosDecode raw = [] ∧
      listGroupsDecode raw = [] ∧ listActionsDecode raw = []) ∧
    (∀ g ∈ listGroupsDecode raw, g.name ≠ "") := by
  constructor
  · intro h
    have ht : jsTrim raw = "" := jsTrim_of_all_space raw h
    refine ⟨?_, ?_, ?_, ?_⟩ <;>
      simp [listMacrosDecode, searchMacrosDecode, listGroupsDecode, listActionsDecode, ht]
  · intro g hg
    unfold listGroupsDecode at hg
    by_cases ht : jsTrim raw = ""
    · rw [if_pos ht] at hg
      cases hg
    · rw [if_neg ht] at hg
      simpa using (List.mem_filter.mp hg).2

/-- Witness for C5_decoders_amended on whitespace-only raw output. -/
theorem C5_decoders_amended_witness :
    listMacrosDecode " " = [] ∧ searchMacrosDecode " " = [] ∧
    listGroupsDecode " " = [] ∧ listActionsDecode " " = [] :=
  (C5_decoders_amended " ").1 (by decide)

/-- C6: a payload whose trimmed text starts with the declaration, doctype
or plist token is returned by `wrapXmlInPlist` only trimmed; any other
payload is returned wrapped in the declaration, doctype and plist root
around the trimmed fragment. -/
theorem C6_plist_wrapping (xml : String) :
    ((jsStartsWith (jsTrim xml) "<?xml" || jsStartsWith (jsTrim xml) "<!DOCTYPE" ||
        jsStartsWith (jsTrim xml) "<plist") = true →
      wrapXmlInPlist xml = jsTrim xml) ∧
    ((jsStartsWith (jsTrim xml) "<?xml" || jsStartsWith (jsTrim xml) "<!DOCTYPE" ||
        jsStartsWith (jsTrim xml) "<plist") = false →
      wrapXmlInPlist xml =
        "<?xml version=\"1.0\" encoding=\"UTF-8\"?>\n<!DOCTYPE plist PUBLIC \"-//Apple//DTD PLIST 1.0//EN\" \"http://www.apple.com/DTDs/PropertyList-1.0.dtd\">\n<plist version=\"1.0\">\n" ++
          jsTrim xml ++ "\n</plist>") := by
  constructor <;> intro h <;> simp [wrapXmlInPlist, h]

/-- Witness for C6_plist_wrapping on both branches. -/
theorem C6_plist_wrapping_witness :
    wrapXmlInPlist "<plist version=\"1.0\"/>" = jsTrim "<plist version=\"1.0\"/>" ∧
    wrapXmlInPlist " <dict/> " =
      "<?xml version=\"1.0\" encoding=\"UTF-8\"?>\n<!DOCTYPE plist PUBLIC \"-//Apple//DTD PLIST 1.0//EN\" \"http://www.apple.com/DTDs/PropertyList-1.0.dtd\">\n<plist version=\"1.0\">\n" ++
        jsTrim " <dict/> " ++ "\n</plist>" :=
  ⟨(C6_plist_wrapping "<plist version=\"1.0\"/>").1 (by decide),
   (C6_plist_wrapping " <dict/> ").2 (by decide)⟩

/-- C7: the conditional embedded in the `moveAction` script sends the moved
action after the last action whenever the requested new index exceeds the
action count (moving action 1 to index 5 in a 4-action macro moves it to
the end, with no out-of-range failure), and before the action at the new
index otherwise. -/
theorem C7_move_action_clamp :
    moveDest 4 5 = MoveDest.afterLast ∧
    (∀ actionCount newIndex : Nat, actionCount < newIndex →
      moveDest actionCount newIndex = MoveDest.afterLast) ∧
    (∀ actionCount newIndex : Nat, newIndex ≤ actionCount →
      moveDest actionCount newIndex = MoveDest.beforeIndex newIndex) := by
  refine ⟨by decide, ?_, ?_⟩
  · intro c j h
    unfold moveDest
    rw [if_pos h]
  · intro c j h
    unfold moveDest
    rw [if_neg (by omega)]

/-- Witness for C7_move_action_clamp on both branches. -/
theorem C7_move_action_clamp_witness :
    moveDest 3 9 = MoveDest.afterLast ∧ moveDest 4 3 = MoveDest.beforeIndex 3 :=
  ⟨C7_move_action_clamp.2.1 3 9 (by decide), C7_move_action_clamp.2.2 4 3 (by decide)⟩

set_option maxRecDepth 40000 in
/-- C8: the spec example line parses to an error entry with macro name
Daily Backup; a line without the timestamp prefix parses to nothing; and a
parsed entry is classified as an error exactly by the case-insensitive
keyword test over failed, error, cancelled and timeout. -/
theorem C8_log_line_parse :
    (parseLogLine "2025-01-01 10:00:00 Execute macro \"Daily Backup\" failed").map
        LogEntry.isError = some true ∧
    (parseLogLine "2025-01-01 10:00:00 Execute macro \"Daily Backup\" failed").map
        LogEntry.macroName = some (some "Daily Backup") ∧
    parseLogLine "Execute macro \"Daily Backup\" failed" = none ∧
    (∀ line : String, matchTsLine line.data = none → parseLogLine line = none) ∧
    (∀ (line : String) (e : LogEntry), parseLogLine line = some e →
      e.isError = isErrorMsg e.message.data) := by
  refine ⟨by decide, by decide, by decide, ?_, ?_⟩
  · intro line h
    simp [parseLogLine, h]
  · intro line e h
    unfold parseLogLine at h
    rcases hm : matchTsLine line.data with _ | v
    · rw [hm] at h
      exact absurd h (by simp)
    · rw [hm] at h
      obtain ⟨y, mo, d, hh, mi, ss, ts, msg⟩ := v
      simp only [Option.some_inj] at h
      rw [← h]

set_option maxRecDepth 40000 in
/-- Witness for C8_log_line_parse on the quantified parts. -/
theorem C8_log_line_parse_witness :
    parseLogLine "no timestamp" = none ∧
    ({ timestamp := "2025-01-01 10:00:00", dateMs := dateMsOf 2025 1 1 10 0 0,
       message := "all good", isError := false, macroName := none,
       actionId := none } : LogEntry).isError = isErrorMsg ("all good").data :=
  ⟨C8_log_line_parse.2.2.2.1 "no timestamp" (by rfl),
   C8_log_line_parse.2.2.2.2 "2025-01-01 10:00:00 all good" _ (by decide)⟩

set_option maxRecDepth 40000 in
/-- C9, counterexample: two staging invocations inside the same
millisecond (same `Date.now()` reading) return the same temp path, so
staged payload files of concurrent calls can collide, refuting the claim
that any two invocations return distinct paths. -/
theorem C9_temp_path_counterexample :
    (kmBind (writeTempXml "<dict/>") (fun p1 =>
       kmBind (writeTempXml "<array/>") (fun p2 => kmPure (p1, p2))) (mkSt 1000 [] true)).1 =
      Except.ok ("/tmp/km_action_1000.plist", "/tmp/km_action_1000.plist") ∧
    stagedPaths
      ((kmBind (writeTempXml "<dict/>") (fun p1 =>
          kmBind (writeTempXml "<array/>") (fun p2 => kmPure (p1, p2))))
        (mkSt 1000 [] true)).2.trace =
      ["/tmp/km_action_1000.plist", "/tmp/km_action_1000.plist"] :=
  ⟨by decide, by decide⟩

/-- C9, amended: the staged temp path is a pure function of the
`Date.now()` millisecond reading, so two invocations that observe
different readings get distinct paths; only same-millisecond invocations
collide. -/
theorem C9_temp_path_amended (t1 t2 : Nat) (h : t1 ≠ t2) :
    tempPathFor t1 ≠ tempPathFor t2 := by
  intro he
  exact h (tempPathFor_injective t1 t2 he)

/-- Witness for C9_temp_path_amended at distinct clock readings. -/
theorem C9_temp_path_amended_witness :
    tempPathFor 1000 ≠ tempPathFor 1001 :=
  C9_temp_path_amended 1000 1001 (by decide)

/-- C10: every numeric-index remote call rejects an explicitly supplied
index 0 with the required-parameter validation error before handing the
arguments on to any external invocation, because JavaScript truthiness
treats 0 like an absent argument. -/
theorem C10_zero_index_rejected (m xml s r : String)
    (hm : m ≠ "") (hx : xml ≠ "") (hs : s ≠ "") :
    kmGetActionXmlHandler (some m) (some 0) = Except.error "actionIndex is required" ∧
    kmSetActionXmlHandler (some m) (some 0) (some xml) =
      Except.error "actionIndex is required" ∧
    kmDeleteActionHandler (some m) (some 0) = Except.error "actionIndex is required" ∧
    kmGetTriggerXmlHandler (some m) (some 0) = Except.error "triggerIndex is required" ∧
    kmSetTriggerXmlHandler (some m) (some 0) (some xml) =
      Except.error "triggerIndex is required" ∧
    kmDeleteTriggerHandler (some m) (some 0) = Except.error "triggerIndex is required" ∧
    kmSearchReplaceActionHandler (some m) (some 0) (some s) (some r) =
      Except.error "actionIndex is required" := by
  refine ⟨?_, ?_, ?_, ?_, ?_, ?_, ?_⟩ <;>
    simp [kmGetActionXmlHandler, kmSetActionXmlHandler, kmDeleteActionHandler,
          kmGetTriggerXmlHandler, kmSetTriggerXmlHandler, kmDeleteTriggerHandler,
          kmSearchReplaceActionHandler, jsTruthyStr, jsTruthyNum, hm, hx, hs]

/-- Witness for C10_zero_index_rejected at concrete arguments. -/
theorem C10_zero_index_rejected_witness :
    kmGetActionXmlHandler (some "Macro One") (some 0) =
      Except.error "actionIndex is required" ∧
    kmSetActionXmlHandler (some "Macro One") (some 0) (some "<dict/>") =
      Except.error "actionIndex is required" ∧
    kmDeleteActionHandler (some "Macro One") (some 0) =
      Except.error "actionIndex is required" ∧
    kmGetTriggerXmlHandler (some "Macro One") (some 0) =
      Except.error "triggerIndex is required" ∧
    kmSetTriggerXmlHandler (some "Macro One") (some 0) (some "<dict/>") =
      Except.error "triggerIndex is required" ∧
    kmDeleteTriggerHandler (some "Macro One") (some 0) =
      Except.error "triggerIndex is required" ∧
    kmSearchReplaceActionHandler (some "Macro One") (some 0) (some "find") (some "put") =
      Except.error "actionIndex is required" :=
  C10_zero_index_rejected "Macro One" "<dict/>" "find" "put"
    (by decide) (by decide) (by decide)
